import Mathlib

/-!
Verification of the change-detection and event-classification core of the
e-commerce event producer (`src/scripts/EventProducer.py`).

The shallow embedding models:
* an order row as returned by the polling query (`monitor_orders`, the
  13-column SELECT over the `orders` table);
* the classifier `_determine_order_event_type`;
* the construction of the outgoing `OrderEvent` payload;
* the per-cycle watermark state (`self.last_processed`) and the per-record
  publish/advance loop of `monitor_orders`, including the abort-on-exception
  behaviour of the surrounding `try`/`except`.

Timestamps are modelled as integers (seconds); Python's
`(updated_at - created_at).total_seconds()` becomes integer subtraction and
`abs(...)` becomes `Int`'s absolute value.  Monetary columns are carried as
integers since no claim performs arithmetic on them; they only pass through
unchanged into the event payload.
-/

/-- One row of the `orders` table as fetched by the query in
`monitor_orders` (columns in the SELECT order: order_id, customer_id,
product_id, order_date, quantity, unit_price, discount_amount, tax_amount,
total_amount, order_status, payment_method, created_at, updated_at). -/
structure OrderRow where
  order_id : Int
  customer_id : Int
  product_id : Int
  order_date : Int
  quantity : Int
  unit_price : Int
  discount_amount : Int
  tax_amount : Int
  total_amount : Int
  order_status : String
  payment_method : String
  created_at : Int
  updated_at : Int
deriving DecidableEq, Repr

/-- The `OrderEvent` dataclass emitted to the `orders` topic.  The two
metadata entries (`order_date`, `unit_price`) are carried as explicit
fields. -/
structure OrderEvent where
  order_id : Int
  customer_id : Int
  product_id : Int
  event_type : String
  order_amount : Int
  quantity : Int
  discount_amount : Int
  tax_amount : Int
  order_status : String
  payment_method : String
  timestamp : Int
  metadata_order_date : Int
  metadata_unit_price : Int
deriving DecidableEq, Repr

/-- The fixed status→event-type table of `_determine_order_event_type`. -/
def statusMap : List (String × String) :=
  [("PENDING", "created"),
   ("CONFIRMED", "confirmed"),
   ("SHIPPED", "shipped"),
   ("DELIVERED", "delivered"),
   ("CANCELLED", "cancelled")]

/-- `EventProducer._determine_order_event_type`: if
`abs((updated_at - created_at).total_seconds()) < 60` the row is a fresh
insert and classifies as `created`; otherwise the status is looked up in
`statusMap` with catch-all `updated`. -/
def determineOrderEventType (o : OrderRow) : String :=
  if |o.updated_at - o.created_at| < 60 then "created"
  else ((statusMap.lookup o.order_status).getD "updated")

/-- Construction of the `OrderEvent` from a fetched row inside the
`for order in orders` loop of `monitor_orders` (lines 156–172): the
event type comes from the classifier, the measures are copied through,
`order_status = order[9]`, `timestamp = order[12]` (the row's
`updated_at`), and metadata holds `order_date` and `unit_price`. -/
def mkOrderEvent (o : OrderRow) : OrderEvent :=
  { order_id := o.order_id
    customer_id := o.customer_id
    product_id := o.product_id
    event_type := determineOrderEventType o
    order_amount := o.total_amount
    quantity := o.quantity
    discount_amount := o.discount_amount
    tax_amount := o.tax_amount
    order_status := o.order_status
    payment_method := o.payment_method
    timestamp := o.updated_at
    metadata_order_date := o.order_date
    metadata_unit_price := o.unit_price }

/-- The `WHERE` stage of the polling query: with an unset watermark there is
no `WHERE` clause and every row qualifies; with watermark `t` only rows with
`updated_at > t` (strict) qualify. -/
def rowsMatching (w : Option Int) (table : List OrderRow) : List OrderRow :=
  match w with
  | none => table
  | some t => table.filter (fun r => t < r.updated_at)

/-- Row comparison used by `ORDER BY updated_at ASC`. -/
def rowLe (a b : OrderRow) : Prop := a.updated_at ≤ b.updated_at

instance : DecidableRel rowLe := fun a b =>
  inferInstanceAs (Decidable (a.updated_at ≤ b.updated_at))

instance : IsTotal OrderRow rowLe := ⟨fun a b => Int.le_total a.updated_at b.updated_at⟩

instance : IsTrans OrderRow rowLe := ⟨fun _ _ _ h1 h2 => le_trans h1 h2⟩

/-- The full polling query of `monitor_orders` (lines 132–150):
`SELECT ... FROM orders [WHERE updated_at > w] ORDER BY updated_at ASC
LIMIT 100`, modelled over an abstract table contents. -/
def pollOrders (w : Option Int) (table : List OrderRow) : List OrderRow :=
  (List.insertionSort rowLe (rowsMatching w table)).take 100

/-- The in-memory `self.last_processed` dictionary initialised in
`EventProducer.__init__` (lines 94–98). -/
structure LastProcessed where
  orders : Option Int
  products : Option Int
  customers : Option Int
deriving DecidableEq, Repr

/-- Initial watermark state from `__init__`: every table starts with `None`
(no lower bound).  The state lives only in process memory, so a fresh
process start always begins from this value. -/
def initialLastProcessed : LastProcessed :=
  { orders := none, products := none, customers := none }

/-- `advance`: the watermark update performed after a successful publish
(line 178, `self.last_processed['orders'] = order[12]`): the new watermark
is the processed row's `updated_at`. -/
def advance (_w : Option Int) (r : OrderRow) : Option Int :=
  some r.updated_at

/-- The emit/advance loop over one fetched batch (lines 152–178) together
with the abort behaviour of the enclosing `try`/`except`: each row is
classified, published, and on publish success the watermark advances to the
row's `updated_at`; the first publish failure raises, aborting the cycle
with the watermark as it stood at that moment.  `publishOk` models the
sink's verdict (a send failure and an acknowledgement timeout both raise).
Returns the watermark after the cycle and the list of delivered events. -/
def runBatch (publishOk : OrderEvent → Bool) :
    List OrderRow → Option Int → Option Int × List OrderEvent
  | [], w => (w, [])
  | r :: rs, w =>
    let ev := mkOrderEvent r
    if publishOk ev then
      let rest := runBatch publishOk rs (advance w r)
      (rest.1, ev :: rest.2)
    else (w, [])

/-- One whole polling cycle of `monitor_orders`: if the source query fails
the `except` block leaves the watermark untouched and nothing is emitted;
otherwise the fetched batch is processed by `runBatch`. -/
def runCycle (queryOk : Bool) (publishOk : OrderEvent → Bool)
    (table : List OrderRow) (w : Option Int) : Option Int × List OrderEvent :=
  if queryOk then runBatch publishOk (pollOrders w table) w else (w, [])

/-- The watermark value after the batch prefix `pre` has been fully
delivered, starting from watermark `w0`: the `updated_at` of the last row of
`pre`, or `w0` when `pre` is empty. -/
def prevWatermark (pre : List OrderRow) (w0 : Option Int) : Option Int :=
  match pre.getLast? with
  | some p => some p.updated_at
  | none => w0

/-- Watermark values observed after each record of a fully successful run,
chaining `advance` along the batch. -/
def watermarkTrace (w : Option Int) : List OrderRow → List (Option Int)
  | [] => []
  | r :: rs => advance w r :: watermarkTrace (advance w r) rs

/-- Order on watermark values: `none` (unset) is below everything. -/
def wmLe (a b : Option Int) : Prop :=
  match a, b with
  | none, _ => True
  | some _, none => False
  | some x, some y => x ≤ y

/-- A sample order row used to instantiate theorems at concrete inputs. -/
def mkRow (oid : Int) (st : String) (c u : Int) : OrderRow :=
  { order_id := oid, customer_id := 1, product_id := 1, order_date := 0,
    quantity := 1, unit_price := 5, discount_amount := 0, tax_amount := 0,
    total_amount := 5, order_status := st, payment_method := "card",
    created_at := c, updated_at := u }

/-- A value found by `List.lookup` is one of the list's stored values. -/
theorem lookup_mem_values {α β : Type} [BEq α] (l : List (α × β)) (k : α) (v : β)
    (h : l.lookup k = some v) : v ∈ l.map Prod.snd := by
  induction l with
  | nil => simp [List.lookup] at h
  | cons p t ih =>
    rw [List.lookup] at h
    cases hk : (k == p.1) with
    | true =>
      rw [hk] at h
      have hv : some p.2 = some v := h
      simp only [List.map_cons, List.mem_cons]
      exact Or.inl (Option.some.inj hv).symm
    | false =>
      rw [hk] at h
      have hv : List.lookup k t = some v := h
      exact List.mem_cons_of_mem _ (ih hv)

/-- Processing a batch whose prefix `pre` publishes successfully and whose
next record `f` fails: the delivered events are exactly those of `pre` and
the watermark ends at the `updated_at` of the last row of `pre` (or stays at
`w0` when the very first publish fails). -/
theorem runBatch_eq_of_fail (publishOk : OrderEvent → Bool)
    (pre : List OrderRow) (f : OrderRow) (post : List OrderRow) (w0 : Option Int)
    (hpre : ∀ p ∈ pre, publishOk (mkOrderEvent p) = true)
    (hf : publishOk (mkOrderEvent f) = false) :
    runBatch publishOk (pre ++ f :: post) w0 =
      (prevWatermark pre w0, pre.map mkOrderEvent) := by
  induction pre generalizing w0 with
  | nil =>
    simp only [List.nil_append, List.map_nil, prevWatermark, List.getLast?]
    rw [runBatch, if_neg (by simp [hf])]
  | cons p t ih =>
    have hp : publishOk (mkOrderEvent p) = true := hpre p (List.mem_cons_self p t)
    have ht : ∀ q ∈ t, publishOk (mkOrderEvent q) = true :=
      fun q hq => hpre q (List.mem_cons_of_mem p hq)
    rw [List.cons_append, runBatch, if_pos hp]
    rw [ih (advance w0 p) ht]
    simp only [List.map_cons, Prod.mk.injEq, and_true]
    show prevWatermark t (advance w0 p) = prevWatermark (p :: t) w0
    cases t with
    | nil => rfl
    | cons q s =>
      simp only [prevWatermark, List.getLast?_cons_cons]
      cases hq : (q :: s).getLast? with
      | some x => rfl
      | none => simp at hq

/-- C2: Any order row whose absolute gap between `updated_at` and `created_at`
is under 60 seconds classifies as `created`, regardless of its status
field. -/
theorem freshRow_classified_created (r : OrderRow)
    (h : |r.updated_at - r.created_at| < 60) :
    determineOrderEventType r = "created" := by
  unfold determineOrderEventType
  rw [if_pos h]

/-- C2 witness: a row created at `T = 0`, modified at `T + 10`, with status
`CONFIRMED` is classified `created`. -/
theorem freshRow_classified_created_witness :
    |(mkRow 1 "CONFIRMED" 0 10).updated_at - (mkRow 1 "CONFIRMED" 0 10).created_at| < 60 ∧
    determineOrderEventType (mkRow 1 "CONFIRMED" 0 10) = "created" :=
  ⟨by decide, freshRow_classified_created (mkRow 1 "CONFIRMED" 0 10) (by decide)⟩

/-- C3: For a row whose timestamp gap is at least 60 seconds, classification
follows the fixed status table (PENDING→created, CONFIRMED→confirmed,
SHIPPED→shipped, DELIVERED→delivered, CANCELLED→cancelled), and any status
outside the table yields the catch-all `updated`; the classifier is a total
function, so no status value can raise an error. -/
theorem staleRow_classified_by_status (r : OrderRow)
    (h : 60 ≤ |r.updated_at - r.created_at|) :
    (r.order_status = "PENDING" → determineOrderEventType r = "created") ∧
    (r.order_status = "CONFIRMED" → determineOrderEventType r = "confirmed") ∧
    (r.order_status = "SHIPPED" → determineOrderEventType r = "shipped") ∧
    (r.order_status = "DELIVERED" → determineOrderEventType r = "delivered") ∧
    (r.order_status = "CANCELLED" → determineOrderEventType r = "cancelled") ∧
    (r.order_status ∉ ["PENDING", "CONFIRMED", "SHIPPED", "DELIVERED", "CANCELLED"] →
      determineOrderEventType r = "updated") := by
  have hn : ¬ |r.updated_at - r.created_at| < 60 := not_lt.mpr h
  unfold determineOrderEventType
  rw [if_neg hn]
  refine ⟨fun hs => ?_, fun hs => ?_, fun hs => ?_, fun hs => ?_, fun hs => ?_, fun hs => ?_⟩
  · simp [statusMap, List.lookup, hs]
  · simp [statusMap, List.lookup, hs]
  · simp [statusMap, List.lookup, hs]
  · simp [statusMap, List.lookup, hs]
  · simp [statusMap, List.lookup, hs]
  · simp only [List.mem_cons, List.not_mem_nil, or_false, not_or] at hs
    obtain ⟨h1, h2, h3, h4, h5⟩ := hs
    have e1 : (r.order_status == "PENDING") = false := beq_eq_false_iff_ne.mpr h1
    have e2 : (r.order_status == "CONFIRMED") = false := beq_eq_false_iff_ne.mpr h2
    have e3 : (r.order_status == "SHIPPED") = false := beq_eq_false_iff_ne.mpr h3
    have e4 : (r.order_status == "DELIVERED") = false := beq_eq_false_iff_ne.mpr h4
    have e5 : (r.order_status == "CANCELLED") = false := beq_eq_false_iff_ne.mpr h5
    simp [statusMap, List.lookup, e1, e2, e3, e4, e5]

/-- C3 witness: a row modified 3600 seconds after creation with status
`SHIPPED` is classified `shipped`. -/
theorem staleRow_classified_by_status_witness :
    60 ≤ |(mkRow 1 "SHIPPED" 0 3600).updated_at - (mkRow 1 "SHIPPED" 0 3600).created_at| ∧
    determineOrderEventType (mkRow 1 "SHIPPED" 0 3600) = "shipped" :=
  ⟨by decide,
   (staleRow_classified_by_status (mkRow 1 "SHIPPED" 0 3600) (by decide)).2.2.1 rfl⟩

/-- C7: The classifier only ever returns one of the six statically known tags,
and hence every emitted order event's `event_type` lies in that set. -/
theorem eventType_mem_known_set (r : OrderRow) :
    determineOrderEventType r ∈
      ["created", "confirmed", "shipped", "delivered", "cancelled", "updated"] ∧
    (mkOrderEvent r).event_type ∈
      ["created", "confirmed", "shipped", "delivered", "cancelled", "updated"] := by
  have hmain : determineOrderEventType r ∈
      ["created", "confirmed", "shipped", "delivered", "cancelled", "updated"] := by
    unfold determineOrderEventType
    by_cases h : |r.updated_at - r.created_at| < 60
    · rw [if_pos h]; simp
    · rw [if_neg h]
      cases hl : statusMap.lookup r.order_status with
      | none => simp
      | some v =>
        have hv := lookup_mem_values statusMap r.order_status v hl
        simp only [statusMap, List.map_cons, List.map_nil, List.mem_cons,
          List.not_mem_nil, or_false] at hv
        simp only [Option.getD_some, List.mem_cons]
        rcases hv with h | h | h | h | h <;> simp [h]
  exact ⟨hmain, hmain⟩

/-- C9 counterexample: a clock-skewed row modified 200 seconds before its
creation time (absolute gap well over 60) with status `PENDING` is still
classified `created` — via the status table, not the freshness test — so
"classified created if and only if the absolute difference is under 60
seconds" fails for clock-skewed rows. -/
theorem skewedPendingRow_breaks_iff :
    (mkRow 9 "PENDING" 200 0).updated_at < (mkRow 9 "PENDING" 200 0).created_at ∧
    ¬ |(mkRow 9 "PENDING" 200 0).updated_at - (mkRow 9 "PENDING" 200 0).created_at| < 60 ∧
    determineOrderEventType (mkRow 9 "PENDING" 200 0) = "created" := by
  decide

/-- C9 amended: the freshness test uses the absolute value of the gap, so a
clock-skewed row (modified before created) is classified `created` by the
freshness rule when the absolute difference is under 60 seconds; when the
absolute difference is at least 60 seconds it falls through to the status
mapping — which may itself still yield `created` (e.g. status `PENDING`). -/
theorem skewedRow_classification (r : OrderRow)
    (hskew : r.updated_at < r.created_at) :
    (|r.updated_at - r.created_at| < 60 → determineOrderEventType r = "created") ∧
    (60 ≤ |r.updated_at - r.created_at| →
      determineOrderEventType r = (statusMap.lookup r.order_status).getD "updated") := by
  constructor
  · intro h
    unfold determineOrderEventType
    rw [if_pos h]
  · intro h
    unfold determineOrderEventType
    rw [if_neg (not_lt.mpr h)]

/-- C9 amended witness: a row with unmapped status `UNKNOWN` modified 200
seconds before creation is classified `updated`. -/
theorem skewedRow_classification_witness :
    determineOrderEventType (mkRow 9 "UNKNOWN" 200 0) = "updated" := by
  have h := (skewedRow_classification (mkRow 9 "UNKNOWN" 200 0) (by decide)).2 (by decide)
  exact h.trans (by decide)

/-- C10: Every emitted order event copies the row's raw status string
unchanged into `order_status` and carries the row's `updated_at` (not the
emission time) as its `timestamp`; in particular a row with status
`CANCELLED` modified within 60 seconds of creation is emitted with
`event_type = created` while `order_status` stays `CANCELLED`. -/
theorem event_preserves_status_and_timestamp (r : OrderRow) :
    (mkOrderEvent r).order_status = r.order_status ∧
    (mkOrderEvent r).timestamp = r.updated_at ∧
    (r.order_status = "CANCELLED" → |r.updated_at - r.created_at| < 60 →
      (mkOrderEvent r).event_type = "created" ∧
      (mkOrderEvent r).order_status = "CANCELLED") := by
  refine ⟨rfl, rfl, fun hs hf => ⟨?_, ?_⟩⟩
  · show determineOrderEventType r = "created"
    unfold determineOrderEventType
    rw [if_pos hf]
  · show r.order_status = "CANCELLED"
    exact hs

/-- C10 witness: a `CANCELLED` row modified 30 seconds after creation is
emitted with event type `created` and order status `CANCELLED`. -/
theorem event_preserves_status_and_timestamp_witness :
    (mkOrderEvent (mkRow 10 "CANCELLED" 0 30)).event_type = "created" ∧
    (mkOrderEvent (mkRow 10 "CANCELLED" 0 30)).order_status = "CANCELLED" :=
  (event_preserves_status_and_timestamp (mkRow 10 "CANCELLED" 0 30)).2.2 rfl (by decide)

/-- C8: The watermark state of `__init__` starts with `orders = None`
(unset, no lower bound), and a poll issued with an unset watermark applies
no watermark constraint: every row of the table passes the `WHERE` stage,
so the first polling pass — and, because the state lives only in process
memory, the first pass after any restart — scans the table from the
beginning (subject only to the query's ordering and batch limit). -/
theorem initial_watermark_unset_scans_all :
    initialLastProcessed.orders = none ∧
    ∀ table : List OrderRow,
      rowsMatching initialLastProcessed.orders table = table ∧
      pollOrders initialLastProcessed.orders table =
        (List.insertionSort rowLe table).take 100 :=
  ⟨rfl, fun _ => ⟨rfl, rfl⟩⟩

/-- C4: Every poll selects only rows strictly newer than the set watermark
(all rows pass the `WHERE` stage when the watermark is unset), returns them
sorted ascending by `updated_at`, and yields at most 100 rows. -/
theorem poll_query_shape (table : List OrderRow) (w : Option Int) :
    (∀ t r, w = some t → r ∈ pollOrders w table → t < r.updated_at) ∧
    List.Sorted rowLe (pollOrders w table) ∧
    (pollOrders w table).length ≤ 100 ∧
    rowsMatching none table = table := by
  refine ⟨?_, ?_, ?_, rfl⟩
  · intro t r hw hr
    subst hw
    have hr1 : r ∈ List.insertionSort rowLe (rowsMatching (some t) table) :=
      List.mem_of_mem_take hr
    have hr2 : r ∈ rowsMatching (some t) table :=
      (List.perm_insertionSort rowLe _).mem_iff.mp hr1
    have hr3 : r ∈ List.filter (fun x => decide (t < x.updated_at)) table := hr2
    have hpa := List.of_mem_filter hr3
    exact of_decide_eq_true hpa
  · exact (List.sorted_insertionSort rowLe _).sublist (List.take_sublist _ _)
  · exact List.length_take_le _ _

/-- C4 witness: polling three rows (modified at 100, 200, 300) with
watermark 150 yields only strictly newer rows, in particular the row
modified at 200. -/
theorem poll_query_shape_witness :
    (150 : Int) < (mkRow 2 "X" 0 200).updated_at :=
  (poll_query_shape [mkRow 1 "X" 0 100, mkRow 2 "X" 0 200, mkRow 3 "X" 0 300]
    (some 150)).1 150 (mkRow 2 "X" 0 200) rfl (by decide)

/-- The watermark trace of a batch sorted ascending by `updated_at` is a
non-decreasing chain. -/
theorem trace_chain' : ∀ (records : List OrderRow) (w0 : Option Int),
    List.Sorted rowLe records → List.Chain' wmLe (watermarkTrace w0 records)
  | [], _, _ => by simp [watermarkTrace]
  | [_], w0, _ => by simp [watermarkTrace]
  | r :: s :: t, w0, h => by
    obtain ⟨hr, hrest⟩ := List.sorted_cons.mp h
    have hchain := trace_chain' (s :: t) (advance w0 r) hrest
    rw [watermarkTrace]
    rw [watermarkTrace] at hchain ⊢
    refine List.chain'_cons.mpr ⟨?_, hchain⟩
    show wmLe (advance w0 r) (advance (advance w0 r) s)
    exact hr s (List.mem_cons_self s t)

/-- C6: Advancing the watermark on a record yields exactly that record's
modification timestamp, and over any batch processed in ascending
modified-time order the successive watermark values form a non-decreasing
sequence. -/
theorem advance_monotone :
    (∀ (w : Option Int) (r : OrderRow), advance w r = some r.updated_at) ∧
    ∀ (w0 : Option Int) (records : List OrderRow),
      List.Sorted rowLe records → List.Chain' wmLe (watermarkTrace w0 records) :=
  ⟨fun _ _ => rfl, fun w0 records h => trace_chain' records w0 h⟩

/-- C6 witness: the watermark trace over two ascending rows is a
non-decreasing chain. -/
theorem advance_monotone_witness :
    List.Chain' wmLe (watermarkTrace none [mkRow 1 "X" 0 100, mkRow 2 "X" 0 200]) :=
  advance_monotone.2 none [mkRow 1 "X" 0 100, mkRow 2 "X" 0 200] (by decide)

/-- C1 counterexample: a batch of three rows modified at 100, 200, 300
starting from an unset watermark, where the sink fails on the second
publish, ends the cycle with watermark `some 100` — the first row's
modification time, not the pre-batch value `none` — and the first row's
event was already delivered.  The watermark is advanced per record (line
178 sits inside the loop), not once after the batch's last record. -/
theorem midBatch_failure_partial_advance :
    (runCycle true (fun e => e.order_id != 2)
        [mkRow 1 "X" 0 100, mkRow 2 "X" 0 200, mkRow 3 "X" 0 300] none).1 = some 100 ∧
    (some (100 : Int) ≠ (none : Option Int)) ∧
    mkOrderEvent (mkRow 1 "X" 0 100) ∈
      (runCycle true (fun e => e.order_id != 2)
        [mkRow 1 "X" 0 100, mkRow 2 "X" 0 200, mkRow 3 "X" 0 300] none).2 := by
  decide

/-- C1 amended: when a batch's prefix `pre` publishes successfully and the
next record fails, the cycle aborts having delivered exactly the events of
`pre`, and the watermark after the cycle is the `updated_at` of the last
delivered record (the pre-batch value only when the very first publish
failed) — i.e. it is not advanced past the failed record, but it is also
not rolled back to its value before the batch began. -/
theorem midBatch_failure_watermark_at_last_delivered
    (publishOk : OrderEvent → Bool) (pre : List OrderRow) (f : OrderRow)
    (post : List OrderRow) (w0 : Option Int)
    (hpre : ∀ p ∈ pre, publishOk (mkOrderEvent p) = true)
    (hf : publishOk (mkOrderEvent f) = false) :
    runBatch publishOk (pre ++ f :: post) w0 =
      (prevWatermark pre w0, pre.map mkOrderEvent) :=
  runBatch_eq_of_fail publishOk pre f post w0 hpre hf

/-- C1 amended witness: with rows modified at 100, 200, 300 and the sink
failing on the second publish, the cycle ends with watermark `some 100` and
exactly the first row's event delivered. -/
theorem midBatch_failure_watermark_at_last_delivered_witness :
    runBatch (fun e => e.order_id != 2)
        ([mkRow 1 "X" 0 100] ++ mkRow 2 "X" 0 200 :: [mkRow 3 "X" 0 300]) none =
      (prevWatermark [mkRow 1 "X" 0 100] none,
       [mkRow 1 "X" 0 100].map mkOrderEvent) :=
  midBatch_failure_watermark_at_last_delivered _ _ _ _ _ (by decide) (by decide)

/-- C5: A failed source query leaves the watermark untouched and emits
nothing; and when a record's publish fails (a send failure and an
acknowledgement timeout both raise), the watermark ends at the last
successfully delivered record before the failure — never at the failed
record's or any later record's timestamp — and in particular, for an
ascending batch whose rows all lie at or above the incoming watermark
bound, the final watermark is no later than the failed record's
modification time, so the next cycle re-polls from at or before it. -/
theorem failure_never_advances_past_undelivered :
    (∀ (publishOk : OrderEvent → Bool) (table : List OrderRow) (w : Option Int),
      runCycle false publishOk table w = (w, [])) ∧
    ∀ (publishOk : OrderEvent → Bool) (pre : List OrderRow) (f : OrderRow)
      (post : List OrderRow) (w0 : Option Int),
      (∀ p ∈ pre, publishOk (mkOrderEvent p) = true) →
      publishOk (mkOrderEvent f) = false →
      List.Sorted rowLe (pre ++ f :: post) →
      (∀ t, w0 = some t → t ≤ f.updated_at) →
      (runBatch publishOk (pre ++ f :: post) w0).1 = prevWatermark pre w0 ∧
      wmLe (runBatch publishOk (pre ++ f :: post) w0).1 (some f.updated_at) := by
  constructor
  · intro publishOk table w
    rfl
  · intro publishOk pre f post w0 hpre hf hsort hw0
    have heq := runBatch_eq_of_fail publishOk pre f post w0 hpre hf
    rw [heq]
    refine ⟨rfl, ?_⟩
    unfold prevWatermark
    cases hp : pre.getLast? with
    | none =>
      cases w0 with
      | none => trivial
      | some t => exact hw0 t rfl
    | some p =>
      obtain ⟨hne, hpe⟩ := List.mem_getLast?_eq_getLast (Option.mem_def.mpr hp)
      have hmem : p ∈ pre := hpe ▸ List.getLast_mem hne
      exact (List.pairwise_append.mp hsort).2.2 p hmem f (List.mem_cons_self f post)

/-- C5 witness: with rows modified at 100, 200, 300, unset incoming
watermark, and the sink failing on the second publish, the final watermark
is that of the first row and does not exceed the failed row's modification
time. -/
theorem failure_never_advances_past_undelivered_witness :
    (runBatch (fun e => e.order_id != 2)
        ([mkRow 1 "X" 0 100] ++ mkRow 2 "X" 0 200 :: [mkRow 3 "X" 0 300]) none).1 =
      prevWatermark [mkRow 1 "X" 0 100] none ∧
    wmLe (runBatch (fun e => e.order_id != 2)
        ([mkRow 1 "X" 0 100] ++ mkRow 2 "X" 0 200 :: [mkRow 3 "X" 0 300]) none).1
      (some (mkRow 2 "X" 0 200).updated_at) :=
  failure_never_advances_past_undelivered.2 _ _ _ _ _
    (by decide) (by decide) (by decide) (fun t ht => nomatch ht)
